import Mathlib

/-!
Shallow embedding of the front end of a small interpreted language:
a recursive descent, precedence climbing parser over a token stream,
together with the type-erased error taxonomy it reports through.

The parser functions are translated one-to-one from the parser module
(`Parser::parse`, `Parser::assignment`, `Parser::equality`, ...).
Mutable cursor state (`self.current`) becomes explicit index passing:
every function takes the token list and the current index and returns
the parsed value together with the new index, or an error.  General
recursion is made total with a fuel parameter; the source recursion
always makes cursor progress, so a large enough fuel never runs out on
a concrete input, and fuel exhaustion is a distinguished error value.

The token kind list, the syntax tree types and the two operator
mapping functions live in source files that are not available (the
lexer token module and the parser ast module); those are modelled from
the specification and marked as such in their doc comments.
-/

namespace Yaipl

/-- Source position carried by every token (line and column). -/
structure Position where
  line : Nat
  col : Nat
deriving DecidableEq

/-- Modelled from the spec: the token kind union of the missing lexer
token module.  Literal carriers (the f64 payload of Float is carried
opaquely as a numeral, the parser only moves it and never computes
with it), operator and punctuation markers, the keyword marker and the
structural markers.  Identifier is the name-reference token backing
the Variable expression of the data model; the spec kind list does not
name it, but the claims and the syntax tree refer to variable tokens,
so it is included (the parser under test never accepts it anywhere). -/
inductive TokenType where
  | Integer : Int → TokenType
  | Float : Nat → TokenType
  | Boolean : Bool → TokenType
  | Identifier : String → TokenType
  | Plus : TokenType
  | Minus : TokenType
  | Multiply : TokenType
  | Divide : TokenType
  | Modulo : TokenType
  | Equal : TokenType
  | NotEqual : TokenType
  | LesserThan : TokenType
  | GreaterThan : TokenType
  | LesserThanEqual : TokenType
  | GreaterThanEqual : TokenType
  | LeftParen : TokenType
  | RightParen : TokenType
  | Comma : TokenType
  | Not : TokenType
  | And : TokenType
  | Or : TokenType
  | Return : TokenType
  | EndOfLine : TokenType
  | EndOfFile : TokenType
deriving DecidableEq

/-- A token: a kind plus a source position. -/
structure Token where
  token_type : TokenType
  position : Position
deriving DecidableEq

/-- The token stream handed to the parser. -/
abbrev Tokens := List Token

/-- Debug rendering of a token kind, mirroring the derived Debug
formatting used by the format strings in the source.  The Float
payload is rendered from its opaque numeral. -/
def TokenType.debug : TokenType → String
  | .Integer v => "Integer(" ++ toString v ++ ")"
  | .Float v => "Float(" ++ toString v ++ ")"
  | .Boolean b => "Boolean(" ++ toString b ++ ")"
  | .Identifier s => "Identifier(\"" ++ s ++ "\")"
  | .Plus => "Plus"
  | .Minus => "Minus"
  | .Multiply => "Multiply"
  | .Divide => "Divide"
  | .Modulo => "Modulo"
  | .Equal => "Equal"
  | .NotEqual => "NotEqual"
  | .LesserThan => "LesserThan"
  | .GreaterThan => "GreaterThan"
  | .LesserThanEqual => "LesserThanEqual"
  | .GreaterThanEqual => "GreaterThanEqual"
  | .LeftParen => "LeftParen"
  | .RightParen => "RightParen"
  | .Comma => "Comma"
  | .Not => "Not"
  | .And => "And"
  | .Or => "Or"
  | .Return => "Return"
  | .EndOfLine => "EndOfLine"
  | .EndOfFile => "EndOfFile"

/-- Modelled from the spec: the arithmetic operator enumeration of the
missing ast module. -/
inductive ArithmeticOperator where
  | Plus : ArithmeticOperator
  | Minus : ArithmeticOperator
  | Multiply : ArithmeticOperator
  | Divide : ArithmeticOperator
  | Modulo : ArithmeticOperator
deriving DecidableEq

/-- Modelled from the spec: the logical operator enumeration of the
missing ast module. -/
inductive LogicalOperator where
  | And : LogicalOperator
  | Or : LogicalOperator
  | Not : LogicalOperator
  | LesserThan : LogicalOperator
  | GreaterThan : LogicalOperator
  | LesserThanEqual : LogicalOperator
  | GreaterThanEqual : LogicalOperator
deriving DecidableEq

/-- Modelled from the spec: the operator wrapper of the missing ast
module; the parser wraps arithmetic and logical operators in it when
building binary and unary expression nodes. -/
inductive Operator where
  | Arithmetic : ArithmeticOperator → Operator
  | Logical : LogicalOperator → Operator
deriving DecidableEq

/-- Modelled from the spec: the variable name reference of the missing
ast module. -/
structure Variable where
  name : String
deriving DecidableEq

/-- Modelled from the spec: literal payloads of the missing ast module. -/
inductive Literal where
  | Integer : Int → Literal
  | Float : Nat → Literal
  | Boolean : Bool → Literal
deriving DecidableEq

/-- Modelled from the spec: the expression family of the syntax tree,
from the missing ast module, shaped exactly as the parser constructs
its nodes. -/
inductive Expression where
  | Literal : Literal → Expression
  | Variable : Variable → Expression
  | Assignment : Variable → Expression → Expression
  | LogicalExpression : Expression → LogicalOperator → Expression → Expression
  | BinaryExpression : Expression → Operator → Expression → Expression
  | UnaryExpression : Operator → Expression → Expression
  | CallExpression : Expression → List Expression → Expression

/-- Modelled from the spec: the statement and program family of the
syntax tree, from the missing ast module. -/
inductive Node where
  | Program : List Node → Node
  | EmptyStatement : Node
  | ReturnStatement : Option Expression → Node
  | ExpressionStatement : Expression → Node

/-- Modelled from the spec: op_token_to_arithmetic from the missing
ast module.  Only the five arithmetic tokens have entries; every other
kind, in particular Equal and NotEqual, maps to none. -/
def op_token_to_arithmetic (t : Token) : Option ArithmeticOperator :=
  match t.token_type with
  | .Plus => some .Plus
  | .Minus => some .Minus
  | .Multiply => some .Multiply
  | .Divide => some .Divide
  | .Modulo => some .Modulo
  | _ => none

/-- Modelled from the spec: op_token_to_logical from the missing ast
module.  The comparison tokens always map for the comparison layer;
the logical connective tokens are included for completeness. -/
def op_token_to_logical (t : Token) : Option LogicalOperator :=
  match t.token_type with
  | .And => some .And
  | .Or => some .Or
  | .Not => some .Not
  | .LesserThan => some .LesserThan
  | .GreaterThan => some .GreaterThan
  | .LesserThanEqual => some .LesserThanEqual
  | .GreaterThanEqual => some .GreaterThanEqual
  | _ => none

/-- The TokenMismatch structured error kind declared in the parser
module through create_error: a message plus the declared context
fields, expected kind and found kind. -/
structure TokenMismatch where
  err : String
  expected : TokenType
  found : TokenType
deriving DecidableEq

/-- The concrete payloads that ever sit behind the boxed dynamic error
type in this code: a TokenMismatch raised by the parser, or a plain
string raised through the error macro and by helpers. -/
inductive DynamicError where
  | tokenMismatch : TokenMismatch → DynamicError
  | str : String → DynamicError
deriving DecidableEq

/-- Modelled from the spec: the unwrap_result helper of the missing
utils module; it turns an absent optional value into an opaque boxed
error. -/
def unwrap_result : Option α → Except DynamicError α
  | some a => .ok a
  | none => .error (.str ("Called unwrap_result on a None value"))

/-- The ParserErrors aggregate generated by create_error_list for the
parser stage: a free-text case, a generic opaque-wrapped-failure case,
and one labeled case per declared structured kind (TokenMismatch). -/
inductive ParserErrors where
  | String : String → ParserErrors
  | Error : DynamicError → ParserErrors
  | TokenMismatch : TokenMismatch → ParserErrors
deriving DecidableEq

/-- Modelled from the spec: the tokenizer stage declares its own
aggregate through the same macro; its structured kinds are not in
scope here, so only the two generic cases are modelled.  It exists so
that the aggregate-identity check of typed extraction is non-trivial. -/
inductive LexerErrors where
  | String : String → LexerErrors
  | Error : DynamicError → LexerErrors
deriving DecidableEq

/-- A value behind the boxed ErrorList trait object: some concrete
aggregate with its type erased.  Downcasting to a concrete aggregate
succeeds exactly on the matching case. -/
inductive ErrorListDyn where
  | parserErrors : ParserErrors → ErrorListDyn
  | lexerErrors : LexerErrors → ErrorListDyn
deriving DecidableEq

/-- The list_name method of the ErrorList trait: the declared name of
the concrete aggregate behind the erased value. -/
def ErrorListDyn.list_name : ErrorListDyn → String
  | .parserErrors _ => "ParserErrors"
  | .lexerErrors _ => "LexerErrors"

/-- From a boxed dynamic error into the parser aggregate: the generic
opaque-wrapped-failure case. -/
def ParserErrors.fromDynamic (e : DynamicError) : ParserErrors :=
  ParserErrors.Error e

/-- Upward conversion of the parser aggregate to the reportable
interface (From ParserErrors for the boxed ErrorList). -/
def ParserErrors.toErrorList (e : ParserErrors) : ErrorListDyn :=
  ErrorListDyn.parserErrors e

/-- Downward conversion of the reportable interface to the parser
aggregate (From the boxed ErrorList for ParserErrors): degrades to the
free-text case holding the list_name of the erased value. -/
def ParserErrors.fromErrorList (e : ErrorListDyn) : ParserErrors :=
  ParserErrors.String e.list_name

/-- Upward conversion of the lexer aggregate to the reportable
interface. -/
def LexerErrors.toErrorList (e : LexerErrors) : ErrorListDyn :=
  ErrorListDyn.lexerErrors e

/-- Downward conversion of the reportable interface to the lexer
aggregate. -/
def LexerErrors.fromErrorList (e : ErrorListDyn) : LexerErrors :=
  LexerErrors.String e.list_name

/-- The extract_type macro instantiated at aggregate ParserErrors and
structured kind TokenMismatch: downcast the erased value to the
aggregate, inspect only its generic opaque-wrapped-failure case, and
downcast the wrapped value to TokenMismatch; the recovered value (the
argument the macro passes to the handler block) is returned, none when
any step fails. -/
def extract_type_token_mismatch : ErrorListDyn → Option TokenMismatch
  | .parserErrors (ParserErrors.Error (DynamicError.tokenMismatch tm)) => some tm
  | _ => none

/-- Fuel exhaustion marker of the embedding; the source recursion
terminates on cursor progress, so this never arises for a concrete
input given enough fuel. -/
def fuelErr : DynamicError := .str ("out of fuel")

/-- Parser.peek: the token under the cursor. -/
def peek (ts : Tokens) (i : Nat) : Option Token := ts[i]?

/-- Parser.previous: the token just before the cursor. -/
def previous (ts : Tokens) (i : Nat) : Option Token := ts[i - 1]?

/-- Parser.is_at_end: the cursor sits on the end-of-file marker, or
has run past the stream bounds. -/
def is_at_end (ts : Tokens) (i : Nat) : Bool :=
  match unwrap_result (peek ts i) with
  | .ok result => result.token_type == TokenType.EndOfFile
  | .error _ => true

/-- Parser.check: the current token has the given kind (false at end
of input). -/
def check (ts : Tokens) (i : Nat) (t : TokenType) : Bool :=
  if is_at_end ts i then false
  else
    match peek ts i with
    | some p => p.token_type == t
    | none => false

/-- Parser.matches: peek and conditionally advance; returns whether it
matched together with the new cursor (the source name is a Lean
keyword, hence the trailing tick). -/
def matches' (ts : Tokens) (i : Nat) (t : TokenType) : Bool × Nat :=
  if check ts i t then (true, i + 1) else (false, i)

/-- Parser.match_one_of: try matches on each kind in order. -/
def match_one_of (ts : Tokens) (i : Nat) : List TokenType → Bool × Nat
  | [] => (false, i)
  | t :: rest =>
    let (m, j) := matches' ts i t
    if m then (true, j) else match_one_of ts j rest

/-- Parser.consume: advance past the current token when it has the
required kind, else raise a token-mismatch naming the required kind as
expected and the current token as found. -/
def consume (ts : Tokens) (i : Nat) (t : TokenType) :
    Except DynamicError (Token × Nat) :=
  if check ts i t then
    match unwrap_result (previous ts (i + 1)) with
    | .ok tok => .ok (tok, i + 1)
    | .error e => .error e
  else
    match unwrap_result (peek ts i) with
    | .ok found =>
      .error (.tokenMismatch
        { err := "Expected token of type " ++ t.debug ++ ", found "
            ++ found.token_type.debug,
          expected := t, found := found.token_type })
    | .error e => .error e

/-- Parser.primary: only literal terminals are accepted; on success
the cursor advances past the consumed token (a literal kind is never
the end-of-file marker, so advance always increments here). -/
def primary (ts : Tokens) (i : Nat) : Except DynamicError (Expression × Nat) :=
  match unwrap_result (peek ts i) with
  | .error e => .error e
  | .ok tok =>
    match tok.token_type with
    | .Integer value => .ok (.Literal (.Integer value), i + 1)
    | .Float value => .ok (.Literal (.Float value), i + 1)
    | .Boolean value => .ok (.Literal (.Boolean value), i + 1)
    | t => .error (.str ("Expected expression, received '" ++ t.debug ++ "'"))

mutual

/-- Parser.parse_statements: collect declarations until end of input. -/
def parse_statements (fuel : Nat) (ts : Tokens) (i : Nat) :
    Except DynamicError (List Node × Nat) :=
  match fuel with
  | 0 => .error fuelErr
  | fuel + 1 =>
    if is_at_end ts i then .ok ([], i)
    else
      match declaration fuel ts i with
      | .error e => .error e
      | .ok (s, i1) =>
        match parse_statements fuel ts i1 with
        | .error e => .error e
        | .ok (rest, i2) => .ok (s :: rest, i2)
termination_by structural fuel

/-- Parser.declaration: currently just a statement. -/
def declaration (fuel : Nat) (ts : Tokens) (i : Nat) :
    Except DynamicError (Node × Nat) :=
  match fuel with
  | 0 => .error fuelErr
  | fuel + 1 => statement fuel ts i

/-- Parser.statement: a bare line terminator yields EmptyStatement, the
return keyword a return statement, anything else an expression
statement. -/
def statement (fuel : Nat) (ts : Tokens) (i : Nat) :
    Except DynamicError (Node × Nat) :=
  match fuel with
  | 0 => .error fuelErr
  | fuel + 1 =>
    let (m, i1) := matches' ts i .EndOfLine
    if m then .ok (.EmptyStatement, i1)
    else
      let (m2, i2) := matches' ts i1 .Return
      if m2 then return_statement fuel ts i2
      else
        match expression_statement fuel ts i2 with
        | .error e => .error e
        | .ok (e, i3) => .ok (.ExpressionStatement e, i3)

/-- Parser.return_statement: the value is absent exactly when the next
token is a line terminator (which matches then consumes it); the
terminator after a present value is not consumed (that consume call is
commented out in the source). -/
def return_statement (fuel : Nat) (ts : Tokens) (i : Nat) :
    Except DynamicError (Node × Nat) :=
  match fuel with
  | 0 => .error fuelErr
  | fuel + 1 =>
    let (m, i1) := matches' ts i .EndOfLine
    if m then .ok (.ReturnStatement none, i1)
    else
      match expression fuel ts i1 with
      | .error e => .error e
      | .ok (v, i2) => .ok (.ReturnStatement (some v), i2)

/-- Parser.expression_statement: an expression followed by a mandatory
line terminator. -/
def expression_statement (fuel : Nat) (ts : Tokens) (i : Nat) :
    Except DynamicError (Expression × Nat) :=
  match fuel with
  | 0 => .error fuelErr
  | fuel + 1 =>
    match expression fuel ts i with
    | .error e => .error e
    | .ok (e, i1) =>
      match consume ts i1 .EndOfLine with
      | .error e2 => .error e2
      | .ok (_, i2) => .ok (e, i2)

/-- Parser.expression: delegates to assignment. -/
def expression (fuel : Nat) (ts : Tokens) (i : Nat) :
    Except DynamicError (Expression × Nat) :=
  match fuel with
  | 0 => .error fuelErr
  | fuel + 1 => assignment fuel ts i
termination_by structural fuel

/-- Parser.assignment: parse the next layer; on a following Equal
token recurse for the value, then demand the already parsed left side
be a Variable, else fail with the invalid-assignment-target message. -/
def assignment (fuel : Nat) (ts : Tokens) (i : Nat) :
    Except DynamicError (Expression × Nat) :=
  match fuel with
  | 0 => .error fuelErr
  | fuel + 1 =>
    match Yaipl.or fuel ts i with
    | .error e => .error e
    | .ok (expr, i1) =>
      let (m, i2) := matches' ts i1 .Equal
      if m then
        match assignment fuel ts i2 with
        | .error e => .error e
        | .ok (value, i3) =>
          match expr with
          | .Variable v => .ok (.Assignment v value, i3)
          | _ => .error (.str ("Invalid assignment target"))
      else .ok (expr, i1)
termination_by structural fuel

/-- Parser.or: left-folding loop over Or tokens. -/
def or (fuel : Nat) (ts : Tokens) (i : Nat) :
    Except DynamicError (Expression × Nat) :=
  match fuel with
  | 0 => .error fuelErr
  | fuel + 1 =>
    match Yaipl.and fuel ts i with
    | .error e => .error e
    | .ok (e, i1) => or_loop fuel ts e i1
termination_by structural fuel

/-- The while loop of Parser.or, with the accumulated expression. -/
def or_loop (fuel : Nat) (ts : Tokens) (expr : Expression) (i : Nat) :
    Except DynamicError (Expression × Nat) :=
  match fuel with
  | 0 => .error fuelErr
  | fuel + 1 =>
    let (m, i1) := matches' ts i .Or
    if m then
      match Yaipl.and fuel ts i1 with
      | .error e => .error e
      | .ok (right, i2) =>
        or_loop fuel ts (.LogicalExpression expr .Or right) i2
    else .ok (expr, i)
termination_by structural fuel

/-- Parser.and: left-folding loop over And tokens. -/
def and (fuel : Nat) (ts : Tokens) (i : Nat) :
    Except DynamicError (Expression × Nat) :=
  match fuel with
  | 0 => .error fuelErr
  | fuel + 1 =>
    match equality fuel ts i with
    | .error e => .error e
    | .ok (e, i1) => and_loop fuel ts e i1
termination_by structural fuel

/-- The while loop of Parser.and, with the accumulated expression. -/
def and_loop (fuel : Nat) (ts : Tokens) (expr : Expression) (i : Nat) :
    Except DynamicError (Expression × Nat) :=
  match fuel with
  | 0 => .error fuelErr
  | fuel + 1 =>
    let (m, i1) := matches' ts i .And
    if m then
      match equality fuel ts i1 with
      | .error e => .error e
      | .ok (right, i2) =>
        and_loop fuel ts (.LogicalExpression expr .And right) i2
    else .ok (expr, i)
termination_by structural fuel

/-- Parser.equality: loop over Equal and NotEqual tokens, looking the
consumed operator up in the arithmetic mapping; a failed lookup raises
a token-mismatch naming Equal as expected and the operator as found. -/
def equality (fuel : Nat) (ts : Tokens) (i : Nat) :
    Except DynamicError (Expression × Nat) :=
  match fuel with
  | 0 => .error fuelErr
  | fuel + 1 =>
    match comparison fuel ts i with
    | .error e => .error e
    | .ok (e, i1) => equality_loop fuel ts e i1
termination_by structural fuel

/-- The while loop of Parser.equality. -/
def equality_loop (fuel : Nat) (ts : Tokens) (expr : Expression) (i : Nat) :
    Except DynamicError (Expression × Nat) :=
  match fuel with
  | 0 => .error fuelErr
  | fuel + 1 =>
    let (m, i1) := match_one_of ts i [.Equal, .NotEqual]
    if m then
      match unwrap_result (previous ts i1) with
      | .error e => .error e
      | .ok operator =>
        match comparison fuel ts i1 with
        | .error e => .error e
        | .ok (right, i2) =>
          match op_token_to_arithmetic operator with
          | none =>
            .error (.tokenMismatch
              { err := "Expected token of type " ++ TokenType.Equal.debug
                  ++ ", found " ++ operator.token_type.debug,
                expected := .Equal, found := operator.token_type })
          | some op =>
            equality_loop fuel ts
              (.BinaryExpression expr (.Arithmetic op) right) i2
    else .ok (expr, i)
termination_by structural fuel

/-- Parser.comparison: loop over the four comparison tokens through
the logical mapping, producing LogicalExpression nodes. -/
def comparison (fuel : Nat) (ts : Tokens) (i : Nat) :
    Except DynamicError (Expression × Nat) :=
  match fuel with
  | 0 => .error fuelErr
  | fuel + 1 =>
    match addition fuel ts i with
    | .error e => .error e
    | .ok (e, i1) => comparison_loop fuel ts e i1
termination_by structural fuel

/-- The while loop of Parser.comparison. -/
def comparison_loop (fuel : Nat) (ts : Tokens) (expr : Expression) (i : Nat) :
    Except DynamicError (Expression × Nat) :=
  match fuel with
  | 0 => .error fuelErr
  | fuel + 1 =>
    let (m, i1) := match_one_of ts i
      [.LesserThan, .GreaterThan, .LesserThanEqual, .GreaterThanEqual]
    if m then
      match unwrap_result (previous ts i1) with
      | .error e => .error e
      | .ok operator =>
        match addition fuel ts i1 with
        | .error e => .error e
        | .ok (right, i2) =>
          match unwrap_result (op_token_to_logical operator) with
          | .error e => .error e
          | .ok cop =>
            comparison_loop fuel ts (.LogicalExpression expr cop right) i2
    else .ok (expr, i)
termination_by structural fuel

/-- Parser.addition: loop over Minus and Plus through the arithmetic
mapping, producing BinaryExpression nodes. -/
def addition (fuel : Nat) (ts : Tokens) (i : Nat) :
    Except DynamicError (Expression × Nat) :=
  match fuel with
  | 0 => .error fuelErr
  | fuel + 1 =>
    match multiplication fuel ts i with
    | .error e => .error e
    | .ok (e, i1) => addition_loop fuel ts e i1
termination_by structural fuel

/-- The while loop of Parser.addition. -/
def addition_loop (fuel : Nat) (ts : Tokens) (expr : Expression) (i : Nat) :
    Except DynamicError (Expression × Nat) :=
  match fuel with
  | 0 => .error fuelErr
  | fuel + 1 =>
    let (m, i1) := match_one_of ts i [.Minus, .Plus]
    if m then
      match unwrap_result (previous ts i1) with
      | .error e => .error e
      | .ok operator =>
        match multiplication fuel ts i1 with
        | .error e => .error e
        | .ok (right, i2) =>
          match unwrap_result (op_token_to_arithmetic operator) with
          | .error e => .error e
          | .ok aop =>
            addition_loop fuel ts
              (.BinaryExpression expr (.Arithmetic aop) right) i2
    else .ok (expr, i)
termination_by structural fuel

/-- Parser.multiplication: loop over Multiply, Divide and Modulo
through the arithmetic mapping. -/
def multiplication (fuel : Nat) (ts : Tokens) (i : Nat) :
    Except DynamicError (Expression × Nat) :=
  match fuel with
  | 0 => .error fuelErr
  | fuel + 1 =>
    match unary fuel ts i with
    | .error e => .error e
    | .ok (e, i1) => multiplication_loop fuel ts e i1
termination_by structural fuel

/-- The while loop of Parser.multiplication. -/
def multiplication_loop (fuel : Nat) (ts : Tokens) (expr : Expression)
    (i : Nat) : Except DynamicError (Expression × Nat) :=
  match fuel with
  | 0 => .error fuelErr
  | fuel + 1 =>
    let (m, i1) := match_one_of ts i [.Multiply, .Divide, .Modulo]
    if m then
      match unwrap_result (previous ts i1) with
      | .error e => .error e
      | .ok operator =>
        match unary fuel ts i1 with
        | .error e => .error e
        | .ok (right, i2) =>
          match unwrap_result (op_token_to_arithmetic operator) with
          | .error e => .error e
          | .ok aop =>
            multiplication_loop fuel ts
              (.BinaryExpression expr (.Arithmetic aop) right) i2
    else .ok (expr, i)
termination_by structural fuel

/-- Parser.unary: prefix Minus and Not, right associative; the source
matches the consumed operator token, builds the operator wrapper, then
matches that wrapper again with two identical success arms, which is
collapsed here; the impossible arms raise the source's internal
contract violation strings. -/
def unary (fuel : Nat) (ts : Tokens) (i : Nat) :
    Except DynamicError (Expression × Nat) :=
  match fuel with
  | 0 => .error fuelErr
  | fuel + 1 =>
    let (m, i1) := match_one_of ts i [.Minus, .Not]
    if m then
      match unwrap_result (previous ts i1) with
      | .error e => .error e
      | .ok operator =>
        match unary fuel ts i1 with
        | .error e => .error e
        | .ok (right, i2) =>
          match operator.token_type with
          | .Minus =>
            .ok (.UnaryExpression (.Arithmetic .Minus) right, i2)
          | .Not => .ok (.UnaryExpression (.Logical .Not) right, i2)
          | _ => .error (.str ("bbbb"))
    else call fuel ts i
termination_by structural fuel

/-- Parser.call: a primary, then repeatedly finish a call while a left
parenthesis follows. -/
def call (fuel : Nat) (ts : Tokens) (i : Nat) :
    Except DynamicError (Expression × Nat) :=
  match fuel with
  | 0 => .error fuelErr
  | fuel + 1 =>
    match primary ts i with
    | .error e => .error e
    | .ok (e, i1) => call_loop fuel ts e i1
termination_by structural fuel

/-- The loop of Parser.call: each finished call becomes the callee of
the next iteration. -/
def call_loop (fuel : Nat) (ts : Tokens) (expr : Expression) (i : Nat) :
    Except DynamicError (Expression × Nat) :=
  match fuel with
  | 0 => .error fuelErr
  | fuel + 1 =>
    let (m, i1) := matches' ts i .LeftParen
    if m then
      match finish_call fuel ts expr i1 with
      | .error e => .error e
      | .ok (e2, i2) => call_loop fuel ts e2 i2
    else .ok (expr, i)
termination_by structural fuel

/-- Parser.finish_call: a possibly empty comma separated argument
list, then a required right parenthesis; on a failed consume the
original error is discarded and a fresh token-mismatch naming
RightParen as expected and the peeked token as found is raised. -/
def finish_call (fuel : Nat) (ts : Tokens) (callee : Expression) (i : Nat) :
    Except DynamicError (Expression × Nat) :=
  match fuel with
  | 0 => .error fuelErr
  | fuel + 1 =>
    match
      (if check ts i .RightParen then .ok ([], i) else args_loop fuel ts i :
        Except DynamicError (List Expression × Nat)) with
    | .error e => .error e
    | .ok (arguments, i1) =>
      match consume ts i1 .RightParen with
      | .ok (_, i2) => .ok (.CallExpression callee arguments, i2)
      | .error _ =>
        match unwrap_result (peek ts i1) with
        | .error e => .error e
        | .ok p =>
          .error (.tokenMismatch
            { err := "Expected ) after arguments",
              expected := .RightParen, found := p.token_type })
termination_by structural fuel

/-- The argument loop of Parser.finish_call: expressions separated by
commas, in source order. -/
def args_loop (fuel : Nat) (ts : Tokens) (i : Nat) :
    Except DynamicError (List Expression × Nat) :=
  match fuel with
  | 0 => .error fuelErr
  | fuel + 1 =>
    match expression fuel ts i with
    | .error e => .error e
    | .ok (e, i1) =>
      let (m, i2) := matches' ts i1 .Comma
      if m then
        match args_loop fuel ts i2 with
        | .error e => .error e
        | .ok (rest, i3) => .ok (e :: rest, i3)
      else .ok ([e], i2)

termination_by structural fuel
end

/-- Parser.parse: the whole stream as one Program node; the boxed
dynamic error crossing the stage boundary is wrapped into the
aggregate's generic opaque-wrapped-failure case by the generated From
conversion. -/
def parse (fuel : Nat) (ts : Tokens) : Except ParserErrors Node :=
  match parse_statements fuel ts 0 with
  | .error e => .error (ParserErrors.fromDynamic e)
  | .ok (stmts, _) => .ok (.Program stmts)

mutual
/-- The syntax tree invariant behind the parser: an expression with no
Variable and no Assignment node anywhere inside it. -/
def varAssignFree : Expression → Bool
  | .Literal _ => true
  | .Variable _ => false
  | .Assignment _ _ => false
  | .LogicalExpression l _ r => varAssignFree l && varAssignFree r
  | .BinaryExpression l _ r => varAssignFree l && varAssignFree r
  | .UnaryExpression _ e => varAssignFree e
  | .CallExpression c arguments => varAssignFree c && varAssignFreeList arguments

/-- varAssignFree over an argument list. -/
def varAssignFreeList : List Expression → Bool
  | [] => true
  | e :: es => varAssignFree e && varAssignFreeList es
end

mutual
/-- The invariant over statement nodes. -/
def nodeVarAssignFree : Node → Bool
  | .Program l => nodesVarAssignFree l
  | .EmptyStatement => true
  | .ReturnStatement none => true
  | .ReturnStatement (some e) => varAssignFree e
  | .ExpressionStatement e => varAssignFree e

/-- The invariant over statement lists. -/
def nodesVarAssignFree : List Node → Bool
  | [] => true
  | n :: rest => nodeVarAssignFree n && nodesVarAssignFree rest
end

/-- A parser step result whose produced expression, if any, is free of
Variable and Assignment nodes. -/
abbrev FreeR (r : Except DynamicError (Expression × Nat)) : Prop :=
  ∀ e j, r = .ok (e, j) → varAssignFree e = true

/-- A parser step result whose final cursor, if any, does not sit on an
Equal token. -/
abbrev EqFreeR (ts : Tokens) (r : Except DynamicError (Expression × Nat)) : Prop :=
  ∀ e j, r = .ok (e, j) → check ts j .Equal = false

/-- The inductive invariant of the expression layers at a given fuel. -/
structure Inv (f : Nat) : Prop where
  unary_ok : ∀ ts i, FreeR (unary f ts i)
  call_ok : ∀ ts i, FreeR (call f ts i)
  call_loop_ok : ∀ ts ex i, varAssignFree ex = true → FreeR (call_loop f ts ex i)
  finish_call_ok : ∀ ts ex i, varAssignFree ex = true → FreeR (finish_call f ts ex i)
  args_loop_ok : ∀ ts i l j, args_loop f ts i = .ok (l, j) → varAssignFreeList l = true
  multiplication_ok : ∀ ts i, FreeR (multiplication f ts i)
  multiplication_loop_ok : ∀ ts ex i, varAssignFree ex = true → FreeR (multiplication_loop f ts ex i)
  addition_ok : ∀ ts i, FreeR (addition f ts i)
  addition_loop_ok : ∀ ts ex i, varAssignFree ex = true → FreeR (addition_loop f ts ex i)
  comparison_ok : ∀ ts i, FreeR (comparison f ts i)
  comparison_loop_ok : ∀ ts ex i, varAssignFree ex = true → FreeR (comparison_loop f ts ex i)
  equality_ok : ∀ ts i, FreeR (equality f ts i)
  equality_eqfree : ∀ ts i, EqFreeR ts (equality f ts i)
  equality_loop_ok : ∀ ts ex i, varAssignFree ex = true → FreeR (equality_loop f ts ex i)
  equality_loop_eqfree : ∀ ts ex i, EqFreeR ts (equality_loop f ts ex i)
  and_ok : ∀ ts i, FreeR (Yaipl.and f ts i)
  and_eqfree : ∀ ts i, EqFreeR ts (Yaipl.and f ts i)
  and_loop_ok : ∀ ts ex i, varAssignFree ex = true → FreeR (and_loop f ts ex i)
  and_loop_eqfree : ∀ ts ex i, check ts i .Equal = false → EqFreeR ts (and_loop f ts ex i)
  or_ok : ∀ ts i, FreeR (Yaipl.or f ts i)
  or_eqfree : ∀ ts i, EqFreeR ts (Yaipl.or f ts i)
  or_loop_ok : ∀ ts ex i, varAssignFree ex = true → FreeR (or_loop f ts ex i)
  or_loop_eqfree : ∀ ts ex i, check ts i .Equal = false → EqFreeR ts (or_loop f ts ex i)
  assignment_ok : ∀ ts i, FreeR (assignment f ts i)
  expression_ok : ∀ ts i, FreeR (expression f ts i)

/-- A test token at a fixed dummy position (positions do not influence
any parser decision). -/
def tok (t : TokenType) : Token :=
  { token_type := t, position := { line := 0, col := 0 } }

/-- Token stream of an equality comparison between two integer
literals (both the source texts 1 = 2 and 1 == 2 tokenize to the Equal
marker between two Integer tokens). -/
def oneEqualTwoToks : Tokens :=
  [tok (.Integer 1), tok .Equal, tok (.Integer 2), tok .EndOfLine,
    tok .EndOfFile]

/-- Token stream of 1 + 2 * 3 with terminator. -/
def onePlusTwoTimesThreeToks : Tokens :=
  [tok (.Integer 1), tok .Plus, tok (.Integer 2), tok .Multiply,
    tok (.Integer 3), tok .EndOfLine, tok .EndOfFile]

/-- Token stream of 1 - 2 - 3 with terminator. -/
def oneMinusTwoMinusThreeToks : Tokens :=
  [tok (.Integer 1), tok .Minus, tok (.Integer 2), tok .Minus,
    tok (.Integer 3), tok .EndOfLine, tok .EndOfFile]

/-- Token stream of the assignment chain a = b = 1 with terminator. -/
def assignChainToks : Tokens :=
  [tok (.Identifier "a"), tok .Equal, tok (.Identifier "b"), tok .Equal,
    tok (.Integer 1), tok .EndOfLine, tok .EndOfFile]

/-- Token stream of the chained call f()() with terminator. -/
def identCallToks : Tokens :=
  [tok (.Identifier "f"), tok .LeftParen, tok .RightParen, tok .LeftParen,
    tok .RightParen, tok .EndOfLine, tok .EndOfFile]

/-- Token stream of the chained call 1()() with terminator. -/
def literalCallToks : Tokens :=
  [tok (.Integer 1), tok .LeftParen, tok .RightParen, tok .LeftParen,
    tok .RightParen, tok .EndOfLine, tok .EndOfFile]

/-- Token stream of 1 + 1 with no trailing line terminator. -/
def onePlusOneToks : Tokens :=
  [tok (.Integer 1), tok .Plus, tok (.Integer 1), tok .EndOfFile]

/-- Token stream of a return statement with a value and terminator. -/
def returnValueToks : Tokens :=
  [tok .Return, tok (.Integer 1), tok .EndOfLine, tok .EndOfFile]

/-- Token stream of a bare return with terminator. -/
def returnBareToks : Tokens :=
  [tok .Return, tok .EndOfLine, tok .EndOfFile]

/-- The token-mismatch produced by the missing statement terminator of
onePlusOneToks. -/
def tmMissingEol : TokenMismatch :=
  { err := "Expected token of type EndOfLine, found EndOfFile",
    expected := .EndOfLine, found := .EndOfFile }


lemma match_one_of_cons_true {ts : Tokens} {i : Nat} {t : TokenType}
    {rest : List TokenType} (h : check ts i t = true) :
    match_one_of ts i (t :: rest) = (true, i + 1) := by
  simp [match_one_of, matches', h]

lemma match_one_of_cons_false {ts : Tokens} {i : Nat} {t : TokenType}
    {rest : List TokenType} (h : check ts i t = false) :
    match_one_of ts i (t :: rest) = match_one_of ts i rest := by
  simp [match_one_of, matches', h]

lemma match_one_of_nil {ts : Tokens} {i : Nat} :
    match_one_of ts i ([] : List TokenType) = (false, i) := rfl

lemma previous_succ (ts : Tokens) (i : Nat) : previous ts (i + 1) = peek ts i := by
  simp [previous, peek]

lemma check_true_elim {ts : Tokens} {i : Nat} {t : TokenType}
    (h : check ts i t = true) :
    ∃ tok, peek ts i = some tok ∧ tok.token_type = t := by
  unfold check at h
  split at h
  · exact absurd h (by simp)
  · split at h
    next p hp => exact ⟨p, hp, by simpa using h⟩
    · exact absurd h (by simp)

lemma matches_true {ts : Tokens} {i : Nat} {t : TokenType}
    (h : check ts i t = true) : matches' ts i t = (true, i + 1) := by
  simp [matches', h]

lemma matches_false {ts : Tokens} {i : Nat} {t : TokenType}
    (h : check ts i t = false) : matches' ts i t = (false, i) := by
  simp [matches', h]



theorem inv_zero : Inv 0 := by
  constructor <;> intro ts <;> intros <;>
    simp_all [unary, call, call_loop, finish_call, args_loop, multiplication,
      multiplication_loop, addition, addition_loop, comparison, comparison_loop,
      equality, equality_loop, Yaipl.and, and_loop, Yaipl.or, or_loop,
      assignment, expression] <;> (intro e j h; simp at h)


lemma primary_free : ∀ ts i e j, primary ts i = .ok (e, j) → varAssignFree e = true := by
  intro ts i e j h
  unfold primary at h
  cases hpk : peek ts i with
  | none => simp [hpk, unwrap_result] at h
  | some tok =>
    simp only [hpk, unwrap_result] at h
    cases htok : tok.token_type <;> simp [htok] at h <;>
      obtain ⟨he, hj⟩ := h <;> simp [← he, varAssignFree]

lemma unary_succ {n : Nat} (ih : Inv n) : ∀ ts i, FreeR (unary (n + 1) ts i) := by
  intro ts i e j h
  simp only [unary] at h
  cases hm : check ts i TokenType.Minus with
  | true =>
    obtain ⟨tok, hpk, htt⟩ := check_true_elim hm
    simp only [match_one_of_cons_true hm, previous_succ, hpk, unwrap_result,
      if_true] at h
    cases hr : unary n ts (i + 1) with
    | error d => simp [hr] at h
    | ok p =>
      obtain ⟨right, i2⟩ := p
      simp only [hr, htt, Except.ok.injEq, Prod.mk.injEq] at h
      obtain ⟨he, hj⟩ := h
      subst he
      simpa [varAssignFree] using ih.unary_ok ts (i + 1) right i2 hr
  | false =>
    cases hn : check ts i TokenType.Not with
    | true =>
      obtain ⟨tok, hpk, htt⟩ := check_true_elim hn
      simp only [match_one_of_cons_false hm, match_one_of_cons_true hn,
        previous_succ, hpk, unwrap_result, if_true] at h
      cases hr : unary n ts (i + 1) with
      | error d => simp [hr] at h
      | ok p =>
        obtain ⟨right, i2⟩ := p
        simp only [hr, htt, Except.ok.injEq, Prod.mk.injEq] at h
        obtain ⟨he, hj⟩ := h
        subst he
        simpa [varAssignFree] using ih.unary_ok ts (i + 1) right i2 hr
    | false =>
      simp only [match_one_of_cons_false hm, match_one_of_cons_false hn,
        match_one_of_nil] at h
      exact ih.call_ok ts i e j (by simpa using h)

lemma call_succ {n : Nat} (ih : Inv n) : ∀ ts i, FreeR (call (n + 1) ts i) := by
  intro ts i e j h
  simp only [call] at h
  cases hp : primary ts i with
  | error d => simp [hp] at h
  | ok p =>
    obtain ⟨e1, i1⟩ := p
    simp only [hp] at h
    exact ih.call_loop_ok ts e1 i1 (primary_free ts i e1 i1 hp) e j h

lemma call_loop_succ {n : Nat} (ih : Inv n) :
    ∀ ts ex i, varAssignFree ex = true → FreeR (call_loop (n + 1) ts ex i) := by
  intro ts ex i hex e j h
  simp only [call_loop] at h
  cases hc : check ts i TokenType.LeftParen with
  | true =>
    simp only [matches_true hc, if_true] at h
    cases hf : finish_call n ts ex (i + 1) with
    | error d => simp [hf] at h
    | ok p =>
      obtain ⟨e2, i2⟩ := p
      simp only [hf] at h
      exact ih.call_loop_ok ts e2 i2
        (ih.finish_call_ok ts ex (i + 1) hex e2 i2 hf) e j h
  | false =>
    simp only [matches_false hc, Bool.false_eq_true, if_false,
      Except.ok.injEq, Prod.mk.injEq] at h
    obtain ⟨he, hj⟩ := h
    subst he
    exact hex

lemma finish_call_succ {n : Nat} (ih : Inv n) :
    ∀ ts ex i, varAssignFree ex = true → FreeR (finish_call (n + 1) ts ex i) := by
  intro ts ex i hex e j h
  simp only [finish_call] at h
  have main : ∀ arguments i1, varAssignFreeList arguments = true →
      (match consume ts i1 TokenType.RightParen with
        | .ok (_, i2) => (.ok (.CallExpression ex arguments, i2) :
            Except DynamicError (Expression × Nat))
        | .error _ =>
          match unwrap_result (peek ts i1) with
          | .error e => .error e
          | .ok p =>
            .error (.tokenMismatch
              { err := "Expected ) after arguments",
                expected := .RightParen, found := p.token_type })) = .ok (e, j) →
      varAssignFree e = true := by
    intro arguments i1 hargs hm
    cases hcons : consume ts i1 TokenType.RightParen with
    | ok q =>
      obtain ⟨t0, i2⟩ := q
      simp only [hcons, Except.ok.injEq, Prod.mk.injEq] at hm
      obtain ⟨he, hj⟩ := hm
      subst he
      simp [varAssignFree, hex, hargs]
    | error d =>
      simp only [hcons] at hm
      cases hpk : peek ts i1 with
      | none => simp [hpk, unwrap_result] at hm
      | some p => simp [hpk, unwrap_result] at hm
  cases hrp : check ts i TokenType.RightParen with
  | true =>
    simp only [hrp, if_true] at h
    exact main [] i rfl h
  | false =>
    simp only [hrp, Bool.false_eq_true, if_false] at h
    cases ha : args_loop n ts i with
    | error d => simp [ha] at h
    | ok q =>
      obtain ⟨arguments, i1⟩ := q
      simp only [ha] at h
      exact main arguments i1 (ih.args_loop_ok ts i arguments i1 ha) h

lemma args_loop_succ {n : Nat} (ih : Inv n) :
    ∀ ts i l j, args_loop (n + 1) ts i = .ok (l, j) →
      varAssignFreeList l = true := by
  intro ts i l j h
  simp only [args_loop] at h
  cases hx : expression n ts i with
  | error d => simp [hx] at h
  | ok p =>
    obtain ⟨e1, i1⟩ := p
    simp only [hx] at h
    cases hc : check ts i1 TokenType.Comma with
    | true =>
      simp only [matches_true hc, if_true] at h
      cases hrest : args_loop n ts (i1 + 1) with
      | error d => simp [hrest] at h
      | ok q =>
        obtain ⟨rest, i3⟩ := q
        simp only [hrest, Except.ok.injEq, Prod.mk.injEq] at h
        obtain ⟨hl, hj⟩ := h
        subst hl
        simp [varAssignFreeList, ih.expression_ok ts i e1 i1 hx,
          ih.args_loop_ok ts (i1 + 1) rest i3 hrest]
    | false =>
      simp only [matches_false hc, Bool.false_eq_true, if_false,
        Except.ok.injEq, Prod.mk.injEq] at h
      obtain ⟨hl, hj⟩ := h
      subst hl
      simp [varAssignFreeList, ih.expression_ok ts i e1 i1 hx]


lemma multiplication_succ {n : Nat} (ih : Inv n) :
    ∀ ts i, FreeR (multiplication (n + 1) ts i) := by
  intro ts i e j h
  simp only [multiplication] at h
  cases hu : unary n ts i with
  | error d => simp [hu] at h
  | ok p =>
    obtain ⟨e1, i1⟩ := p
    simp only [hu] at h
    exact ih.multiplication_loop_ok ts e1 i1 (ih.unary_ok ts i e1 i1 hu) e j h

lemma multiplication_loop_succ {n : Nat} (ih : Inv n) :
    ∀ ts ex i, varAssignFree ex = true →
      FreeR (multiplication_loop (n + 1) ts ex i) := by
  intro ts ex i hex e j h
  simp only [multiplication_loop] at h
  have main : ∀ tok, peek ts i = some tok →
      (tok.token_type = TokenType.Multiply ∨ tok.token_type = TokenType.Divide ∨
        tok.token_type = TokenType.Modulo) →
      (match unwrap_result (previous ts (i + 1)) with
        | .error e => (.error e : Except DynamicError (Expression × Nat))
        | .ok operator =>
          match unary n ts (i + 1) with
          | .error e => .error e
          | .ok (right, i2) =>
            match unwrap_result (op_token_to_arithmetic operator) with
            | .error e => .error e
            | .ok aop =>
              multiplication_loop n ts
                (.BinaryExpression ex (.Arithmetic aop) right) i2) = .ok (e, j) →
      varAssignFree e = true := by
    intro tok hpk htt hm
    simp only [previous_succ, hpk, unwrap_result] at hm
    cases hu : unary n ts (i + 1) with
    | error d => simp [hu] at hm
    | ok p =>
      obtain ⟨right, i2⟩ := p
      simp only [hu] at hm
      rcases htt with htt | htt | htt <;>
        simp only [op_token_to_arithmetic, htt, unwrap_result] at hm <;>
        exact ih.multiplication_loop_ok ts _ i2
          (by simp [varAssignFree, hex, ih.unary_ok ts (i + 1) right i2 hu])
          e j hm
  cases h1 : check ts i TokenType.Multiply with
  | true =>
    obtain ⟨tok, hpk, htt⟩ := check_true_elim h1
    simp only [match_one_of_cons_true h1, if_true] at h
    exact main tok hpk (Or.inl htt) h
  | false =>
    cases h2 : check ts i TokenType.Divide with
    | true =>
      obtain ⟨tok, hpk, htt⟩ := check_true_elim h2
      simp only [match_one_of_cons_false h1, match_one_of_cons_true h2,
        if_true] at h
      exact main tok hpk (Or.inr (Or.inl htt)) h
    | false =>
      cases h3 : check ts i TokenType.Modulo with
      | true =>
        obtain ⟨tok, hpk, htt⟩ := check_true_elim h3
        simp only [match_one_of_cons_false h1, match_one_of_cons_false h2,
          match_one_of_cons_true h3, if_true] at h
        exact main tok hpk (Or.inr (Or.inr htt)) h
      | false =>
        simp only [match_one_of_cons_false h1, match_one_of_cons_false h2,
          match_one_of_cons_false h3, match_one_of_nil, Bool.false_eq_true,
          if_false, Except.ok.injEq, Prod.mk.injEq] at h
        obtain ⟨he, hj⟩ := h
        subst he
        exact hex

lemma addition_succ {n : Nat} (ih : Inv n) :
    ∀ ts i, FreeR (addition (n + 1) ts i) := by
  intro ts i e j h
  simp only [addition] at h
  cases hu : multiplication n ts i with
  | error d => simp [hu] at h
  | ok p =>
    obtain ⟨e1, i1⟩ := p
    simp only [hu] at h
    exact ih.addition_loop_ok ts e1 i1
      (ih.multiplication_ok ts i e1 i1 hu) e j h

lemma addition_loop_succ {n : Nat} (ih : Inv n) :
    ∀ ts ex i, varAssignFree ex = true →
      FreeR (addition_loop (n + 1) ts ex i) := by
  intro ts ex i hex e j h
  simp only [addition_loop] at h
  have main : ∀ tok, peek ts i = some tok →
      (tok.token_type = TokenType.Minus ∨ tok.token_type = TokenType.Plus) →
      (match unwrap_result (previous ts (i + 1)) with
        | .error e => (.error e : Except DynamicError (Expression × Nat))
        | .ok operator =>
          match multiplication n ts (i + 1) with
          | .error e => .error e
          | .ok (right, i2) =>
            match unwrap_result (op_token_to_arithmetic operator) with
            | .error e => .error e
            | .ok aop =>
              addition_loop n ts
                (.BinaryExpression ex (.Arithmetic aop) right) i2) = .ok (e, j) →
      varAssignFree e = true := by
    intro tok hpk htt hm
    simp only [previous_succ, hpk, unwrap_result] at hm
    cases hu : multiplication n ts (i + 1) with
    | error d => simp [hu] at hm
    | ok p =>
      obtain ⟨right, i2⟩ := p
      simp only [hu] at hm
      rcases htt with htt | htt <;>
        simp only [op_token_to_arithmetic, htt, unwrap_result] at hm <;>
        exact ih.addition_loop_ok ts _ i2
          (by simp [varAssignFree, hex, ih.multiplication_ok ts (i + 1) right i2 hu])
          e j hm
  cases h1 : check ts i TokenType.Minus with
  | true =>
    obtain ⟨tok, hpk, htt⟩ := check_true_elim h1
    simp only [match_one_of_cons_true h1, if_true] at h
    exact main tok hpk (Or.inl htt) h
  | false =>
    cases h2 : check ts i TokenType.Plus with
    | true =>
      obtain ⟨tok, hpk, htt⟩ := check_true_elim h2
      simp only [match_one_of_cons_false h1, match_one_of_cons_true h2,
        if_true] at h
      exact main tok hpk (Or.inr htt) h
    | false =>
      simp only [match_one_of_cons_false h1, match_one_of_cons_false h2,
        match_one_of_nil, Bool.false_eq_true, if_false, Except.ok.injEq,
        Prod.mk.injEq] at h
      obtain ⟨he, hj⟩ := h
      subst he
      exact hex

lemma comparison_succ {n : Nat} (ih : Inv n) :
    ∀ ts i, FreeR (comparison (n + 1) ts i) := by
  intro ts i e j h
  simp only [comparison] at h
  cases hu : addition n ts i with
  | error d => simp [hu] at h
  | ok p =>
    obtain ⟨e1, i1⟩ := p
    simp only [hu] at h
    exact ih.comparison_loop_ok ts e1 i1 (ih.addition_ok ts i e1 i1 hu) e j h

lemma comparison_loop_succ {n : Nat} (ih : Inv n) :
    ∀ ts ex i, varAssignFree ex = true →
      FreeR (comparison_loop (n + 1) ts ex i) := by
  intro ts ex i hex e j h
  simp only [comparison_loop] at h
  have main : ∀ tok, peek ts i = some tok →
      (tok.token_type = TokenType.LesserThan ∨
        tok.token_type = TokenType.GreaterThan ∨
        tok.token_type = TokenType.LesserThanEqual ∨
        tok.token_type = TokenType.GreaterThanEqual) →
      (match unwrap_result (previous ts (i + 1)) with
        | .error e => (.error e : Except DynamicError (Expression × Nat))
        | .ok operator =>
          match addition n ts (i + 1) with
          | .error e => .error e
          | .ok (right, i2) =>
            match unwrap_result (op_token_to_logical operator) with
            | .error e => .error e
            | .ok cop =>
              comparison_loop n ts
                (.LogicalExpression ex cop right) i2) = .ok (e, j) →
      varAssignFree e = true := by
    intro tok hpk htt hm
    simp only [previous_succ, hpk, unwrap_result] at hm
    cases hu : addition n ts (i + 1) with
    | error d => simp [hu] at hm
    | ok p =>
      obtain ⟨right, i2⟩ := p
      simp only [hu] at hm
      rcases htt with htt | htt | htt | htt <;>
        simp only [op_token_to_logical, htt, unwrap_result] at hm <;>
        exact ih.comparison_loop_ok ts _ i2
          (by simp [varAssignFree, hex, ih.addition_ok ts (i + 1) right i2 hu])
          e j hm
  cases h1 : check ts i TokenType.LesserThan with
  | true =>
    obtain ⟨tok, hpk, htt⟩ := check_true_elim h1
    simp only [match_one_of_cons_true h1, if_true] at h
    exact main tok hpk (Or.inl htt) h
  | false =>
    cases h2 : check ts i TokenType.GreaterThan with
    | true =>
      obtain ⟨tok, hpk, htt⟩ := check_true_elim h2
      simp only [match_one_of_cons_false h1, match_one_of_cons_true h2,
        if_true] at h
      exact main tok hpk (Or.inr (Or.inl htt)) h
    | false =>
      cases h3 : check ts i TokenType.LesserThanEqual with
      | true =>
        obtain ⟨tok, hpk, htt⟩ := check_true_elim h3
        simp only [match_one_of_cons_false h1, match_one_of_cons_false h2,
          match_one_of_cons_true h3, if_true] at h
        exact main tok hpk (Or.inr (Or.inr (Or.inl htt))) h
      | false =>
        cases h4 : check ts i TokenType.GreaterThanEqual with
        | true =>
          obtain ⟨tok, hpk, htt⟩ := check_true_elim h4
          simp only [match_one_of_cons_false h1, match_one_of_cons_false h2,
            match_one_of_cons_false h3, match_one_of_cons_true h4, if_true] at h
          exact main tok hpk (Or.inr (Or.inr (Or.inr htt))) h
        | false =>
          simp only [match_one_of_cons_false h1, match_one_of_cons_false h2,
            match_one_of_cons_false h3, match_one_of_cons_false h4,
            match_one_of_nil, Bool.false_eq_true, if_false, Except.ok.injEq,
            Prod.mk.injEq] at h
          obtain ⟨he, hj⟩ := h
          subst he
          exact hex


lemma equality_loop_succ_err {n : Nat} {ts : Tokens} {i : Nat} {tok : Token}
    (hpk : peek ts i = some tok)
    (htt : tok.token_type = TokenType.Equal ∨
      tok.token_type = TokenType.NotEqual) :
    ∀ expr, (match unwrap_result (previous ts (i + 1)) with
      | .error e => (.error e : Except DynamicError (Expression × Nat))
      | .ok operator =>
        match comparison n ts (i + 1) with
        | .error e => .error e
        | .ok (right, i2) =>
          match op_token_to_arithmetic operator with
          | none =>
            .error (.tokenMismatch
              { err := "Expected token of type " ++ TokenType.Equal.debug
                  ++ ", found " ++ operator.token_type.debug,
                expected := .Equal, found := operator.token_type })
          | some op =>
            equality_loop n ts
              (.BinaryExpression expr (.Arithmetic op) right) i2) = x →
      (∀ e j, x = .ok (e, j) → False) := by
  intro expr hm e j hx
  subst hx
  simp only [previous_succ, hpk, unwrap_result] at hm
  cases hu : comparison n ts (i + 1) with
  | error d => simp [hu] at hm
  | ok p =>
    obtain ⟨right, i2⟩ := p
    simp only [hu] at hm
    rcases htt with htt | htt <;>
      simp [op_token_to_arithmetic, htt, unwrap_result] at hm

lemma equality_loop_succ_free {n : Nat} (_ih : Inv n) :
    ∀ ts ex i, varAssignFree ex = true →
      FreeR (equality_loop (n + 1) ts ex i) := by
  intro ts ex i hex e j h
  simp only [equality_loop] at h
  cases h1 : check ts i TokenType.Equal with
  | true =>
    obtain ⟨tok, hpk, htt⟩ := check_true_elim h1
    simp only [match_one_of_cons_true h1, if_true] at h
    exact absurd rfl (equality_loop_succ_err hpk (Or.inl htt) ex h e j)
  | false =>
    cases h2 : check ts i TokenType.NotEqual with
    | true =>
      obtain ⟨tok, hpk, htt⟩ := check_true_elim h2
      simp only [match_one_of_cons_false h1, match_one_of_cons_true h2,
        if_true] at h
      exact absurd rfl (equality_loop_succ_err hpk (Or.inr htt) ex h e j)
    | false =>
      simp only [match_one_of_cons_false h1, match_one_of_cons_false h2,
        match_one_of_nil, Bool.false_eq_true, if_false, Except.ok.injEq,
        Prod.mk.injEq] at h
      obtain ⟨he, hj⟩ := h
      subst he
      exact hex

lemma equality_loop_succ_eqfree {n : Nat} (_ih : Inv n) :
    ∀ ts ex i, EqFreeR ts (equality_loop (n + 1) ts ex i) := by
  intro ts ex i e j h
  simp only [equality_loop] at h
  cases h1 : check ts i TokenType.Equal with
  | true =>
    obtain ⟨tok, hpk, htt⟩ := check_true_elim h1
    simp only [match_one_of_cons_true h1, if_true] at h
    exact absurd rfl (equality_loop_succ_err hpk (Or.inl htt) ex h e j)
  | false =>
    cases h2 : check ts i TokenType.NotEqual with
    | true =>
      obtain ⟨tok, hpk, htt⟩ := check_true_elim h2
      simp only [match_one_of_cons_false h1, match_one_of_cons_true h2,
        if_true] at h
      exact absurd rfl (equality_loop_succ_err hpk (Or.inr htt) ex h e j)
    | false =>
      simp only [match_one_of_cons_false h1, match_one_of_cons_false h2,
        match_one_of_nil, Bool.false_eq_true, if_false, Except.ok.injEq,
        Prod.mk.injEq] at h
      obtain ⟨he, hj⟩ := h
      subst hj
      exact h1

lemma equality_succ_free {n : Nat} (ih : Inv n) :
    ∀ ts i, FreeR (equality (n + 1) ts i) := by
  intro ts i e j h
  simp only [equality] at h
  cases hc : comparison n ts i with
  | error d => simp [hc] at h
  | ok p =>
    obtain ⟨e1, i1⟩ := p
    simp only [hc] at h
    exact ih.equality_loop_ok ts e1 i1 (ih.comparison_ok ts i e1 i1 hc) e j h

lemma equality_succ_eqfree {n : Nat} (ih : Inv n) :
    ∀ ts i, EqFreeR ts (equality (n + 1) ts i) := by
  intro ts i e j h
  simp only [equality] at h
  cases hc : comparison n ts i with
  | error d => simp [hc] at h
  | ok p =>
    obtain ⟨e1, i1⟩ := p
    simp only [hc] at h
    exact ih.equality_loop_eqfree ts e1 i1 e j h

lemma and_succ_free {n : Nat} (ih : Inv n) :
    ∀ ts i, FreeR (Yaipl.and (n + 1) ts i) := by
  intro ts i e j h
  simp only [Yaipl.and] at h
  cases hc : equality n ts i with
  | error d => simp [hc] at h
  | ok p =>
    obtain ⟨e1, i1⟩ := p
    simp only [hc] at h
    exact ih.and_loop_ok ts e1 i1 (ih.equality_ok ts i e1 i1 hc) e j h

lemma and_succ_eqfree {n : Nat} (ih : Inv n) :
    ∀ ts i, EqFreeR ts (Yaipl.and (n + 1) ts i) := by
  intro ts i e j h
  simp only [Yaipl.and] at h
  cases hc : equality n ts i with
  | error d => simp [hc] at h
  | ok p =>
    obtain ⟨e1, i1⟩ := p
    simp only [hc] at h
    exact ih.and_loop_eqfree ts e1 i1 (ih.equality_eqfree ts i e1 i1 hc) e j h

lemma and_loop_succ_free {n : Nat} (ih : Inv n) :
    ∀ ts ex i, varAssignFree ex = true → FreeR (and_loop (n + 1) ts ex i) := by
  intro ts ex i hex e j h
  simp only [and_loop] at h
  cases hc : check ts i TokenType.And with
  | true =>
    simp only [matches_true hc, if_true] at h
    cases hq : equality n ts (i + 1) with
    | error d => simp [hq] at h
    | ok p =>
      obtain ⟨right, i2⟩ := p
      simp only [hq] at h
      exact ih.and_loop_ok ts _ i2
        (by simp [varAssignFree, hex, ih.equality_ok ts (i + 1) right i2 hq])
        e j h
  | false =>
    simp only [matches_false hc, Bool.false_eq_true, if_false,
      Except.ok.injEq, Prod.mk.injEq] at h
    obtain ⟨he, hj⟩ := h
    subst he
    exact hex

lemma and_loop_succ_eqfree {n : Nat} (ih : Inv n) :
    ∀ ts ex i, check ts i .Equal = false →
      EqFreeR ts (and_loop (n + 1) ts ex i) := by
  intro ts ex i hpre e j h
  simp only [and_loop] at h
  cases hc : check ts i TokenType.And with
  | true =>
    simp only [matches_true hc, if_true] at h
    cases hq : equality n ts (i + 1) with
    | error d => simp [hq] at h
    | ok p =>
      obtain ⟨right, i2⟩ := p
      simp only [hq] at h
      exact ih.and_loop_eqfree ts _ i2
        (ih.equality_eqfree ts (i + 1) right i2 hq) e j h
  | false =>
    simp only [matches_false hc, Bool.false_eq_true, if_false,
      Except.ok.injEq, Prod.mk.injEq] at h
    obtain ⟨he, hj⟩ := h
    subst hj
    exact hpre

lemma or_succ_free {n : Nat} (ih : Inv n) :
    ∀ ts i, FreeR (Yaipl.or (n + 1) ts i) := by
  intro ts i e j h
  simp only [Yaipl.or] at h
  cases hc : Yaipl.and n ts i with
  | error d => simp [hc] at h
  | ok p =>
    obtain ⟨e1, i1⟩ := p
    simp only [hc] at h
    exact ih.or_loop_ok ts e1 i1 (ih.and_ok ts i e1 i1 hc) e j h

lemma or_succ_eqfree {n : Nat} (ih : Inv n) :
    ∀ ts i, EqFreeR ts (Yaipl.or (n + 1) ts i) := by
  intro ts i e j h
  simp only [Yaipl.or] at h
  cases hc : Yaipl.and n ts i with
  | error d => simp [hc] at h
  | ok p =>
    obtain ⟨e1, i1⟩ := p
    simp only [hc] at h
    exact ih.or_loop_eqfree ts e1 i1 (ih.and_eqfree ts i e1 i1 hc) e j h

lemma or_loop_succ_free {n : Nat} (ih : Inv n) :
    ∀ ts ex i, varAssignFree ex = true → FreeR (or_loop (n + 1) ts ex i) := by
  intro ts ex i hex e j h
  simp only [or_loop] at h
  cases hc : check ts i TokenType.Or with
  | true =>
    simp only [matches_true hc, if_true] at h
    cases hq : Yaipl.and n ts (i + 1) with
    | error d => simp [hq] at h
    | ok p =>
      obtain ⟨right, i2⟩ := p
      simp only [hq] at h
      exact ih.or_loop_ok ts _ i2
        (by simp [varAssignFree, hex, ih.and_ok ts (i + 1) right i2 hq])
        e j h
  | false =>
    simp only [matches_false hc, Bool.false_eq_true, if_false,
      Except.ok.injEq, Prod.mk.injEq] at h
    obtain ⟨he, hj⟩ := h
    subst he
    exact hex

lemma or_loop_succ_eqfree {n : Nat} (ih : Inv n) :
    ∀ ts ex i, check ts i .Equal = false →
      EqFreeR ts (or_loop (n + 1) ts ex i) := by
  intro ts ex i hpre e j h
  simp only [or_loop] at h
  cases hc : check ts i TokenType.Or with
  | true =>
    simp only [matches_true hc, if_true] at h
    cases hq : Yaipl.and n ts (i + 1) with
    | error d => simp [hq] at h
    | ok p =>
      obtain ⟨right, i2⟩ := p
      simp only [hq] at h
      exact ih.or_loop_eqfree ts _ i2
        (ih.and_eqfree ts (i + 1) right i2 hq) e j h
  | false =>
    simp only [matches_false hc, Bool.false_eq_true, if_false,
      Except.ok.injEq, Prod.mk.injEq] at h
    obtain ⟨he, hj⟩ := h
    subst hj
    exact hpre

lemma assignment_succ {n : Nat} (ih : Inv n) :
    ∀ ts i, FreeR (assignment (n + 1) ts i) := by
  intro ts i e j h
  simp only [assignment] at h
  cases ho : Yaipl.or n ts i with
  | error d => simp [ho] at h
  | ok p =>
    obtain ⟨expr, i1⟩ := p
    simp only [ho] at h
    have hq : check ts i1 TokenType.Equal = false :=
      ih.or_eqfree ts i expr i1 ho
    simp only [matches_false hq, Bool.false_eq_true, if_false,
      Except.ok.injEq, Prod.mk.injEq] at h
    obtain ⟨he, hj⟩ := h
    subst he
    exact ih.or_ok ts i expr i1 ho

lemma expression_succ {n : Nat} (ih : Inv n) :
    ∀ ts i, FreeR (expression (n + 1) ts i) := by
  intro ts i e j h
  simp only [expression] at h
  exact ih.assignment_ok ts i e j h

theorem inv_all : ∀ f, Inv f := by
  intro f
  induction f with
  | zero => exact inv_zero
  | succ n ih =>
    exact ⟨unary_succ ih, call_succ ih, call_loop_succ ih, finish_call_succ ih,
      args_loop_succ ih, multiplication_succ ih, multiplication_loop_succ ih,
      addition_succ ih, addition_loop_succ ih, comparison_succ ih,
      comparison_loop_succ ih, equality_succ_free ih, equality_succ_eqfree ih,
      equality_loop_succ_free ih, equality_loop_succ_eqfree ih,
      and_succ_free ih, and_succ_eqfree ih, and_loop_succ_free ih,
      and_loop_succ_eqfree ih, or_succ_free ih, or_succ_eqfree ih,
      or_loop_succ_free ih, or_loop_succ_eqfree ih, assignment_succ ih,
      expression_succ ih⟩

/-- Assignment behaves exactly as its operand layer: the equality layer
has consumed every Equal token by the time assignment looks for one, so
the Assignment construction branch and the invalid-assignment-target
error are both dead. -/
theorem assignment_eq_or : ∀ fuel ts i,
    assignment (fuel + 1) ts i = Yaipl.or fuel ts i := by
  intro fuel ts i
  simp only [assignment]
  cases ho : Yaipl.or fuel ts i with
  | error d => rfl
  | ok p =>
    obtain ⟨expr, i1⟩ := p
    have hq : check ts i1 TokenType.Equal = false :=
      (inv_all fuel).or_eqfree ts i expr i1 ho
    simp [matches_false hq]


lemma check_false_of_peek {ts : Tokens} {i : Nat} {tok : Token} {t : TokenType}
    (hpk : peek ts i = some tok) (hne : tok.token_type ≠ t) :
    check ts i t = false := by
  unfold check
  split
  · rfl
  · rw [hpk]
    simpa using hne

lemma expression_statement_free :
    ∀ fuel ts i, FreeR (expression_statement fuel ts i) := by
  intro fuel ts i e j h
  cases fuel with
  | zero => simp [expression_statement] at h
  | succ n =>
    simp only [expression_statement] at h
    cases hx : expression n ts i with
    | error d => simp [hx] at h
    | ok p =>
      obtain ⟨e1, i1⟩ := p
      simp only [hx] at h
      cases hcons : consume ts i1 .EndOfLine with
      | error d => simp [hcons] at h
      | ok q =>
        obtain ⟨t0, i2⟩ := q
        simp only [hcons, Except.ok.injEq, Prod.mk.injEq] at h
        obtain ⟨he, hj⟩ := h
        subst he
        exact (inv_all n).expression_ok ts i e1 i1 hx

lemma return_statement_free :
    ∀ fuel ts i nd j, return_statement fuel ts i = .ok (nd, j) →
      nodeVarAssignFree nd = true := by
  intro fuel ts i nd j h
  cases fuel with
  | zero => simp [return_statement] at h
  | succ n =>
    simp only [return_statement] at h
    cases hc : check ts i TokenType.EndOfLine with
    | true =>
      simp only [matches_true hc, if_true, Except.ok.injEq,
        Prod.mk.injEq] at h
      obtain ⟨hnd, hj⟩ := h
      subst hnd
      simp [nodeVarAssignFree]
    | false =>
      simp only [matches_false hc, Bool.false_eq_true, if_false] at h
      cases hx : expression n ts i with
      | error d => simp [hx] at h
      | ok p =>
        obtain ⟨v, i2⟩ := p
        simp only [hx, Except.ok.injEq, Prod.mk.injEq] at h
        obtain ⟨hnd, hj⟩ := h
        subst hnd
        simp [nodeVarAssignFree, (inv_all n).expression_ok ts i v i2 hx]

lemma statement_free :
    ∀ fuel ts i nd j, statement fuel ts i = .ok (nd, j) →
      nodeVarAssignFree nd = true := by
  intro fuel ts i nd j h
  cases fuel with
  | zero => simp [statement] at h
  | succ n =>
    simp only [statement] at h
    cases hc : check ts i TokenType.EndOfLine with
    | true =>
      simp only [matches_true hc, if_true, Except.ok.injEq,
        Prod.mk.injEq] at h
      obtain ⟨hnd, hj⟩ := h
      subst hnd
      simp [nodeVarAssignFree]
    | false =>
      simp only [matches_false hc, Bool.false_eq_true, if_false] at h
      cases hr : check ts i TokenType.Return with
      | true =>
        simp only [matches_true hr, if_true] at h
        exact return_statement_free n ts (i + 1) nd j h
      | false =>
        simp only [matches_false hr, Bool.false_eq_true, if_false] at h
        cases hx : expression_statement n ts i with
        | error d => simp [hx] at h
        | ok p =>
          obtain ⟨e1, i3⟩ := p
          simp only [hx, Except.ok.injEq, Prod.mk.injEq] at h
          obtain ⟨hnd, hj⟩ := h
          subst hnd
          simp [nodeVarAssignFree, expression_statement_free n ts i e1 i3 hx]

lemma declaration_free :
    ∀ fuel ts i nd j, declaration fuel ts i = .ok (nd, j) →
      nodeVarAssignFree nd = true := by
  intro fuel ts i nd j h
  cases fuel with
  | zero => simp [declaration] at h
  | succ n =>
    simp only [declaration] at h
    exact statement_free n ts i nd j h

lemma parse_statements_free :
    ∀ fuel ts i l j, parse_statements fuel ts i = .ok (l, j) →
      nodesVarAssignFree l = true := by
  intro fuel
  induction fuel with
  | zero => intro ts i l j h; simp [parse_statements] at h
  | succ n ihp =>
    intro ts i l j h
    simp only [parse_statements] at h
    cases hend : is_at_end ts i with
    | true =>
      simp only [hend, if_true, Except.ok.injEq, Prod.mk.injEq] at h
      obtain ⟨hl, hj⟩ := h
      subst hl
      simp [nodesVarAssignFree]
    | false =>
      simp only [hend, Bool.false_eq_true, if_false] at h
      cases hd : declaration n ts i with
      | error d => simp [hd] at h
      | ok p =>
        obtain ⟨s0, i1⟩ := p
        simp only [hd] at h
        cases hrest : parse_statements n ts i1 with
        | error d => simp [hrest] at h
        | ok q =>
          obtain ⟨rest, i2⟩ := q
          simp only [hrest, Except.ok.injEq, Prod.mk.injEq] at h
          obtain ⟨hl, hj⟩ := h
          subst hl
          simp [nodesVarAssignFree, declaration_free n ts i s0 i1 hd,
            ihp ts i1 rest i2 hrest]

lemma parse_free :
    ∀ fuel ts prog, parse fuel ts = .ok prog →
      nodeVarAssignFree prog = true := by
  intro fuel ts prog h
  simp only [parse] at h
  cases hs : parse_statements fuel ts 0 with
  | error d => simp [hs] at h
  | ok p =>
    obtain ⟨stmts, k⟩ := p
    simp only [hs, Except.ok.injEq] at h
    subst h
    simp only [nodeVarAssignFree]
    exact parse_statements_free fuel ts 0 stmts k hs

lemma equality_rejects {fuel : Nat} {ts : Tokens} {i j k : Nat}
    {e right : Expression} {tt : TokenType}
    (hleft : comparison (fuel + 1) ts i = .ok (e, j))
    (hop : check ts j tt = true)
    (htt : tt = TokenType.Equal ∨ tt = TokenType.NotEqual)
    (hright : comparison fuel ts (j + 1) = .ok (right, k)) :
    equality (fuel + 2) ts i = .error (.tokenMismatch
      { err := "Expected token of type Equal, found " ++ tt.debug,
        expected := .Equal, found := tt }) := by
  obtain ⟨tok, hpk, htok⟩ := check_true_elim hop
  simp only [equality, hleft, equality_loop]
  rcases htt with rfl | rfl
  · simp only [match_one_of_cons_true hop, if_true, previous_succ, hpk,
      unwrap_result, hright]
    simp [op_token_to_arithmetic, htok, TokenType.debug]
  · have hne : check ts j TokenType.Equal = false :=
      check_false_of_peek hpk (by simp [htok])
    simp only [match_one_of_cons_false hne, match_one_of_cons_true hop,
      if_true, previous_succ, hpk, unwrap_result, hright]
    simp [op_token_to_arithmetic, htok, TokenType.debug]




/-- C1: whenever the equality layer has parsed a left comparison
operand, finds an Equal or NotEqual token at the cursor, and parses a
right comparison operand, it fails with a token-mismatch naming Equal
as the expected kind and the consumed operator kind as found, because
the arithmetic-operator mapping has no entry for equality tokens; in
particular the whole parse of the stream of 1 == 2 fails with that
token-mismatch (expected Equal, found Equal). -/
theorem claim_C1 :
    (∀ fuel ts i j k e right tt,
      comparison (fuel + 1) ts i = .ok (e, j) →
      check ts j tt = true →
      (tt = TokenType.Equal ∨ tt = TokenType.NotEqual) →
      comparison fuel ts (j + 1) = .ok (right, k) →
      equality (fuel + 2) ts i = .error (.tokenMismatch
        { err := "Expected token of type Equal, found " ++ tt.debug,
          expected := .Equal, found := tt }))
    ∧ parse 32 oneEqualTwoToks = .error (ParserErrors.Error (.tokenMismatch
        { err := "Expected token of type Equal, found Equal",
          expected := .Equal, found := .Equal })) := by
  constructor
  · intro fuel ts i j k e right tt h1 h2 h3 h4
    exact equality_rejects h1 h2 h3 h4
  · rfl

/-- C1 witness: the general part instantiated on the stream of 1 == 2,
with the equality layer entered right at the start. -/
theorem claim_C1_witness :
    equality 10 oneEqualTwoToks 0 = .error (.tokenMismatch
      { err := "Expected token of type Equal, found " ++ TokenType.Equal.debug,
        expected := .Equal, found := .Equal }) :=
  claim_C1.1 8 oneEqualTwoToks 0 1 3 (.Literal (.Integer 1))
    (.Literal (.Integer 2)) .Equal rfl rfl (Or.inl rfl) rfl

/-- C2: evaluating the parser on the token stream of a = b = 1 shows
the claimed successful right-associative assignment parse does not
happen: the variable token is rejected at primary with the generic
expected-expression failure, so no Assignment node is ever built. -/
theorem claim_C2 :
    parse 32 assignChainToks = .error (ParserErrors.Error
      (.str ("Expected expression, received 'Identifier(\"a\")'"))) := by
  rfl

/-- C3: evaluating the parser on the token stream of 1 = 2 shows the
failure is a token-mismatch with expected Equal and found Equal raised
by the equality layer (which consumes the Equal token and fails its
arithmetic-operator lookup), not the generic invalid-assignment-target
diagnostic the claim names. -/
theorem claim_C3 :
    parse 32 oneEqualTwoToks = .error (ParserErrors.Error (.tokenMismatch
      { err := "Expected token of type Equal, found Equal",
        expected := .Equal, found := .Equal })) := by
  rfl

/-- C4: typed extraction returns a recovered token-mismatch exactly
when the erased value is the parser aggregate in its generic
opaque-wrapped-failure case wrapping that token-mismatch; the labeled
structured case is never matched; and the token-mismatch raised by the
parser on the stream of 1 + 1 without terminator, wrapped into the
aggregate and converted to the reportable interface, is recovered with
all its fields unchanged. -/
theorem claim_C4 :
    (∀ d tm, extract_type_token_mismatch d = some tm ↔
      d = ErrorListDyn.parserErrors
        (ParserErrors.Error (DynamicError.tokenMismatch tm)))
    ∧ (∀ tm, extract_type_token_mismatch
        (ErrorListDyn.parserErrors (ParserErrors.TokenMismatch tm)) = none)
    ∧ parse 32 onePlusOneToks = .error (ParserErrors.Error
        (.tokenMismatch tmMissingEol))
    ∧ extract_type_token_mismatch (ParserErrors.toErrorList
        (ParserErrors.Error (.tokenMismatch tmMissingEol)))
        = some tmMissingEol := by
  refine ⟨?_, ?_, rfl, rfl⟩
  · intro d tm
    constructor
    · intro h
      rcases d with pe | le
      · rcases pe with s | de | tm2
        · simp [extract_type_token_mismatch] at h
        · rcases de with tm2 | s
          · simp only [extract_type_token_mismatch, Option.some.injEq] at h
            subst h
            rfl
          · simp [extract_type_token_mismatch] at h
        · simp [extract_type_token_mismatch] at h
      · simp [extract_type_token_mismatch] at h
    · intro h
      subst h
      rfl
  · intro tm
    rfl

/-- C4 witness: the characterization applied at the concrete wrapped
token-mismatch of the missing-terminator parse. -/
theorem claim_C4_witness :
    extract_type_token_mismatch (ErrorListDyn.parserErrors
      (ParserErrors.Error (DynamicError.tokenMismatch tmMissingEol)))
      = some tmMissingEol :=
  (claim_C4.1 (ErrorListDyn.parserErrors
    (ParserErrors.Error (DynamicError.tokenMismatch tmMissingEol)))
    tmMissingEol).mpr rfl

/-- C5: converting any concrete aggregate value up to the reportable
interface and back down to the aggregate of the same declared type
yields the free-text case holding exactly the aggregate's declared
name, for both declared aggregates. -/
theorem claim_C5 :
    (∀ e : ParserErrors,
      ParserErrors.fromErrorList (ParserErrors.toErrorList e) =
        ParserErrors.String "ParserErrors")
    ∧ (∀ e : LexerErrors,
      LexerErrors.fromErrorList (LexerErrors.toErrorList e) =
        LexerErrors.String "LexerErrors") :=
  ⟨fun _ => rfl, fun _ => rfl⟩

/-- C5 witness: the round trip evaluated on a structured payload in the
opaque-wrapped case, showing the payload degrades to the free-text name. -/
theorem claim_C5_witness :
    ParserErrors.fromErrorList (ParserErrors.toErrorList
      (ParserErrors.Error (DynamicError.tokenMismatch tmMissingEol))) =
      ParserErrors.String "ParserErrors" :=
  claim_C5.1 (ParserErrors.Error (DynamicError.tokenMismatch tmMissingEol))

/-- C6: multiplicative operators bind tighter than additive ones, and
each binary layer folds left-associatively: 1 + 2 * 3 parses to one
expression statement holding Plus applied to 1 and (2 * 3), and
1 - 2 - 3 parses to (1 - 2) - 3. -/
theorem claim_C6 :
    parse 32 onePlusTwoTimesThreeToks = .ok (.Program
      [.ExpressionStatement (.BinaryExpression (.Literal (.Integer 1))
        (.Arithmetic .Plus) (.BinaryExpression (.Literal (.Integer 2))
          (.Arithmetic .Multiply) (.Literal (.Integer 3))))])
    ∧ parse 32 oneMinusTwoMinusThreeToks = .ok (.Program
      [.ExpressionStatement (.BinaryExpression
        (.BinaryExpression (.Literal (.Integer 1)) (.Arithmetic .Minus)
          (.Literal (.Integer 2)))
        (.Arithmetic .Minus) (.Literal (.Integer 3)))]) :=
  ⟨rfl, rfl⟩

/-- C7 counterexample: the claimed stream of f()() with an identifier
callee does not parse successfully; primary rejects the identifier
token with the generic expected-expression failure. -/
theorem claim_C7_counterexample :
    parse 32 identCallToks = .error (ParserErrors.Error
      (.str ("Expected expression, received 'Identifier(\"f\")'"))) := by
  rfl

/-- C7 as amended: calls are postfix, left-associative and chainable
for a callee primary accepts: the stream of 1()() parses to
CallExpression(CallExpression(Literal 1, []), []), each call result
becoming the callee of the next. -/
theorem claim_C7 :
    parse 32 literalCallToks = .ok (.Program
      [.ExpressionStatement (.CallExpression
        (.CallExpression (.Literal (.Integer 1)) []) [])]) := by
  rfl

/-- C8: an expression statement requires the line terminator: the
stream of 1 + 1 whose next token is EndOfFile fails with a
token-mismatch naming EndOfLine as expected and EndOfFile as found. -/
theorem claim_C8 :
    parse 32 onePlusOneToks = .error (ParserErrors.Error (.tokenMismatch
      { err := "Expected token of type EndOfLine, found EndOfFile",
        expected := .EndOfLine, found := .EndOfFile })) := by
  rfl

/-- C9: every successful parse yields a program with no Variable and no
Assignment node; primary succeeds only with literal expressions and
rejects every other token kind with the generic expected-expression
failure; and assignment coincides with its operand layer on every
input, so its Assignment-construction branch and the
invalid-assignment-target error are unreachable. -/
theorem claim_C9 :
    (∀ fuel ts prog, parse fuel ts = .ok prog →
      nodeVarAssignFree prog = true)
    ∧ (∀ ts i e j, primary ts i = .ok (e, j) →
        ∃ l, e = Expression.Literal l)
    ∧ (∀ ts i t0, peek ts i = some t0 →
        (∀ v, t0.token_type ≠ TokenType.Integer v) →
        (∀ v, t0.token_type ≠ TokenType.Float v) →
        (∀ v, t0.token_type ≠ TokenType.Boolean v) →
        primary ts i = .error (.str ("Expected expression, received '"
          ++ t0.token_type.debug ++ "'")))
    ∧ (∀ fuel ts i, assignment (fuel + 1) ts i = Yaipl.or fuel ts i) := by
  refine ⟨parse_free, ?_, ?_, assignment_eq_or⟩
  · intro ts i e j h
    unfold primary at h
    cases hpk : peek ts i with
    | none => simp [hpk, unwrap_result] at h
    | some t0 =>
      simp only [hpk, unwrap_result] at h
      cases htok : t0.token_type
      case Integer v =>
        simp only [htok, Except.ok.injEq, Prod.mk.injEq] at h
        exact ⟨.Integer v, h.1.symm⟩
      case Float v =>
        simp only [htok, Except.ok.injEq, Prod.mk.injEq] at h
        exact ⟨.Float v, h.1.symm⟩
      case Boolean v =>
        simp only [htok, Except.ok.injEq, Prod.mk.injEq] at h
        exact ⟨.Boolean v, h.1.symm⟩
      all_goals simp [htok] at h
  · intro ts i t0 hpk h1 h2 h3
    simp only [primary, hpk, unwrap_result]

/-- C9 witness: the invariant evaluated at the concrete parse of
1 + 2 * 3, the primary success at its first token, the primary
rejection of an identifier token, and the assignment-or coincidence on
the stream of 1 == 2. -/
theorem claim_C9_witness :
    nodeVarAssignFree (Node.Program [Node.ExpressionStatement
      (.BinaryExpression (.Literal (.Integer 1)) (.Arithmetic .Plus)
        (.BinaryExpression (.Literal (.Integer 2)) (.Arithmetic .Multiply)
          (.Literal (.Integer 3))))]) = true
    ∧ (∃ l, Expression.Literal (Literal.Integer 1) = Expression.Literal l)
    ∧ primary identCallToks 0 = .error (.str ("Expected expression, received '"
        ++ (tok (.Identifier "f")).token_type.debug ++ "'"))
    ∧ assignment 6 oneEqualTwoToks 0 = Yaipl.or 5 oneEqualTwoToks 0 :=
  ⟨claim_C9.1 32 onePlusTwoTimesThreeToks _ rfl,
    claim_C9.2.1 onePlusTwoTimesThreeToks 0 _ 1 rfl,
    claim_C9.2.2.1 identCallToks 0 (tok (.Identifier "f")) rfl
      (fun v => by simp [tok]) (fun v => by simp [tok])
      (fun v => by simp [tok]),
    claim_C9.2.2.2 5 oneEqualTwoToks 0⟩

/-- C10: a return statement with a value does not consume its trailing
line terminator, so Return 1 EndOfLine parses to a return statement
followed by an empty statement, while a bare Return EndOfLine consumes
the terminator and yields exactly one return statement with no value. -/
theorem claim_C10 :
    parse 32 returnValueToks = .ok (.Program
      [.ReturnStatement (some (.Literal (.Integer 1))), .EmptyStatement])
    ∧ parse 32 returnBareToks = .ok (.Program [.ReturnStatement none]) :=
  ⟨rfl, rfl⟩

end Yaipl
